import Mathlib

/-!
# Notenpfad — verification of the grade aggregation and access-control core

The repository ships the React front end (`ChatBot`, `GradeHistory`) and a
deployment guide; the backend core (Entity Store, Average Engine, Auth Gate,
Grade API) is described by the specification but its source is not among
the files at hand.  Definitions for the backend core are therefore modelled
from the spec (each marked as such); the two front-end components are
embedded directly from their JSX source.
-/

namespace Notenpfad

/-! ## Data model -/

/-- Modelled from the spec: the single configured numeric grade scale
(§3: a Grade's value "must be validated against a single configured scale"). -/
structure Scale where
  minV : ℚ
  maxV : ℚ
  deriving DecidableEq, Repr

/-- Modelled from the spec: Student record (§3). -/
structure Student where
  id : Nat
  name : String
  deriving DecidableEq, Repr

/-- Modelled from the spec: Subject record with weight (§3). -/
structure Subject where
  id : Nat
  name : String
  weight : ℚ
  deriving DecidableEq, Repr

/-- Modelled from the spec: Grade record (§3); `date` is a timestamp used
for ordering, never for weighting. -/
structure Grade where
  id : Nat
  studentId : Nat
  subjectId : Nat
  value : ℚ
  date : Nat
  deriving DecidableEq, Repr

/-- The fields supplied to a Grade creation (§4.1). -/
structure GradeFields where
  studentId : Nat
  subjectId : Nat
  value : ℚ
  date : Nat
  deriving DecidableEq, Repr

/-- Modelled from the spec: the error taxonomy of §7. -/
inductive ApiError where
  | ValidationError
  | AuthError
  | ForbiddenError
  | NotFoundError
  | ConflictError
  | NoDataError
  deriving DecidableEq, Repr

/-- Modelled from the spec: the HTTP status attached to each error kind
(§7, §8); `NoDataError` is surfaced as an explicit no-data marker rather
than an HTTP failure, so it keeps the success status. -/
def httpStatus : ApiError → Nat
  | .ValidationError => 422
  | .AuthError => 401
  | .ForbiddenError => 403
  | .NotFoundError => 404
  | .ConflictError => 409
  | .NoDataError => 200

instance {ε α : Type} [DecidableEq ε] [DecidableEq α] : DecidableEq (Except ε α) :=
  fun a b =>
    match a, b with
    | .ok x, .ok y =>
        if h : x = y then .isTrue (by rw [h])
        else .isFalse (by intro heq; cases heq; exact h rfl)
    | .error x, .error y =>
        if h : x = y then .isTrue (by rw [h])
        else .isFalse (by intro heq; cases heq; exact h rfl)
    | .ok _, .error _ => .isFalse (by intro heq; cases heq)
    | .error _, .ok _ => .isFalse (by intro heq; cases heq)

/-! ## Average Engine (modelled from the spec, §4.2) -/

/-- Modelled from the spec: error raised by the Average Engine when an
average is requested over zero grades (§4.2, §7). -/
inductive EngineError where
  | NoDataError
  deriving DecidableEq, Repr

/-- The grades of one subject among a student's grades (§4.2). -/
def subjectGrades (gs : List Grade) (subjId : Nat) : List Grade :=
  gs.filter (fun g => g.subjectId == subjId)

/-- Arithmetic mean of a list of rationals. -/
def listMean (l : List ℚ) : ℚ := l.sum / (l.length : ℚ)

/-- Modelled from the spec: per-subject average, the unweighted arithmetic
mean of that subject's grade values (§4.2). -/
def subjectAvg (gs : List Grade) (subjId : Nat) : ℚ :=
  listMean ((subjectGrades gs subjId).map Grade.value)

/-- Modelled from the spec: the subjects in which the student has at least
one grade; only these enter the overall average (§4.2). -/
def activeSubjects (subjects : List Subject) (gs : List Grade) : List Subject :=
  subjects.filter (fun s => !(subjectGrades gs s.id).isEmpty)

/-- Modelled from the spec: overall weighted average (§4.2), computed by a
single pass accumulating the weighted numerator and the weight denominator
over the subjects that have at least one grade; zero grades in total yield
`NoDataError`, never a numeric zero. -/
def overallAverage (subjects : List Subject) (gs : List Grade) : Except EngineError ℚ :=
  if gs.isEmpty then .error .NoDataError
  else
    let acc := subjects.foldl
      (fun (p : ℚ × ℚ) s =>
        if (subjectGrades gs s.id).isEmpty then p
        else (p.1 + listMean ((subjectGrades gs s.id).map Grade.value) * s.weight,
              p.2 + s.weight))
      (0, 0)
    .ok (acc.1 / acc.2)

/-- `Σ (subjectAverage_i × weight_i)` over subjects with at least one grade. -/
def numerSum (subjects : List Subject) (gs : List Grade) : ℚ :=
  ((activeSubjects subjects gs).map (fun s => subjectAvg gs s.id * s.weight)).sum

/-- `Σ weight_i` over subjects with at least one grade. -/
def denomSum (subjects : List Subject) (gs : List Grade) : ℚ :=
  ((activeSubjects subjects gs).map Subject.weight).sum

/-- Deleting a grade by id from a grade list (the Entity Store's
`delete(id)` restricted to the grade table, §4.1). -/
def removeGrade (gs : List Grade) (gid : Nat) : List Grade :=
  gs.filter (fun g => !(g.id == gid))

/-! ## Auth Gate (modelled from the spec, §4.3) -/

/-- Modelled from the spec: the role carried by a token (§3). -/
inductive Role where
  | admin
  | student
  deriving DecidableEq, Repr

/-- Modelled from the spec: token payload — role, studentId (present iff
role is student), expiry (§3 AuthToken). -/
structure TokenPayload where
  role : Role
  studentId : Option Nat
  expiry : Nat
  deriving DecidableEq, Repr

/-- A bearer token: payload plus signature (§9: stateless signed-token
scheme, HMAC-signed claims). -/
structure Token where
  payload : TokenPayload
  sig : Nat
  deriving DecidableEq, Repr

/-- Numeric encoding of a role, for signing. -/
def encodeRole : Role → Nat
  | .admin => 0
  | .student => 1

/-- Injective numeric encoding of a payload, for signing. -/
def encodePayload (p : TokenPayload) : Nat :=
  Nat.pair (encodeRole p.role)
    (Nat.pair (match p.studentId with | none => 0 | some sid => sid + 1) p.expiry)

/-- Modelled from the spec: the signing function of the stateless
signed-token scheme (§9); the signature binds the secret to the payload. -/
def sign (secret : Nat) (p : TokenPayload) : Nat :=
  Nat.pair secret (encodePayload p)

/-- A payload is well formed when `studentId` is present iff the role is
student (§3). -/
def wellFormed (p : TokenPayload) : Bool :=
  match p.role, p.studentId with
  | .admin, none => true
  | .student, some _ => true
  | _, _ => false

/-- Modelled from the spec: `validateToken` (§4.3) — pure and stateless;
fails with `AuthError` on a malformed, signature-mismatched or expired
token; expiry is checked on every call. -/
def validateToken (secret now : Nat) (t : Token) : Except ApiError TokenPayload :=
  if ¬ wellFormed t.payload then .error .AuthError
  else if t.sig ≠ sign secret t.payload then .error .AuthError
  else if t.payload.expiry ≤ now then .error .AuthError
  else .ok t.payload

/-! ## Grade API authorization (modelled from the spec, §4.4, §6) -/

/-- Modelled from the spec: the operations of the HTTP surface (§6).
`deleteGrade` carries the owning `studentId` of the targeted grade, as
resolved by the API before the authorization step. -/
inductive Action where
  | listGrades (studentId : Option Nat) (subjectId : Option Nat)
  | createGrade (f : GradeFields)
  | deleteGrade (ownerId : Nat) (gradeId : Nat)
  | listSubjects
  | createSubject (name : String) (weight : ℚ)
  | editWeight (subjectId : Nat) (weight : ℚ)

/-- Modelled from the spec: the `TokenValidated → Authorized` transition
(§4.4): a student-role token may not target another `studentId` and may not
perform admin-only operations (subject creation / weight edit); an
admin-role token is unrestricted; a student list without an explicit
`studentId` target is implicitly filtered to self (§6). -/
def authorize (p : TokenPayload) (a : Action) : Except ApiError Unit :=
  match p.role with
  | .admin => .ok ()
  | .student =>
    match p.studentId with
    | none => .error .ForbiddenError
    | some own =>
      match a with
      | .listGrades target _ =>
          match target with
          | none => .ok ()
          | some b => if b = own then .ok () else .error .ForbiddenError
      | .createGrade f => if f.studentId = own then .ok () else .error .ForbiddenError
      | .deleteGrade ownerId _ => if ownerId = own then .ok () else .error .ForbiddenError
      | .listSubjects => .ok ()
      | .createSubject _ _ => .error .ForbiddenError
      | .editWeight _ _ => .error .ForbiddenError

/-- Modelled from the spec: the first two transitions of the per-request
state machine (§4.4): validate the token, then authorize the action. -/
def gateCheck (secret now : Nat) (t : Token) (a : Action) : Except ApiError Unit :=
  match validateToken secret now t with
  | .error e => .error e
  | .ok p => authorize p a

/-! ## Entity Store (modelled from the spec, §4.1) -/

/-- Modelled from the spec: the Entity Store state — the three entity
tables, the configured scale, and the next fresh id (§4.1). -/
structure Store where
  scale : Scale
  students : List Student
  subjects : List Subject
  grades : List Grade
  nextId : Nat
  deriving DecidableEq, Repr

/-- Modelled from the spec: validation of Grade fields (§4.1, §3
invariants) — the referenced student and subject must exist and the value
must lie within the configured scale. -/
def validGradeFields (st : Store) (f : GradeFields) : Bool :=
  st.students.any (fun s => s.id == f.studentId) &&
  st.subjects.any (fun s => s.id == f.subjectId) &&
  decide (st.scale.minV ≤ f.value) &&
  decide (f.value ≤ st.scale.maxV)

/-- Modelled from the spec: `createStudent` (§4.1). -/
def createStudent (st : Store) (name : String) : Except ApiError (Nat × Store) :=
  .ok (st.nextId,
    { st with students := st.students ++ [⟨st.nextId, name⟩], nextId := st.nextId + 1 })

/-- Modelled from the spec: `createSubject` (§4.1) — rejects a non-positive
weight with `ValidationError`. -/
def createSubject (st : Store) (name : String) (weight : ℚ) :
    Except ApiError (Nat × Store) :=
  if 0 < weight then
    .ok (st.nextId,
      { st with
          subjects := st.subjects ++ [⟨st.nextId, name, weight⟩],
          nextId := st.nextId + 1 })
  else .error .ValidationError

/-- Modelled from the spec: `createGrade` (§4.1) — rejects malformed fields
with `ValidationError`. -/
def createGrade (st : Store) (f : GradeFields) : Except ApiError (Nat × Store) :=
  if validGradeFields st f then
    .ok (st.nextId,
      { st with
          grades := st.grades ++ [⟨st.nextId, f.studentId, f.subjectId, f.value, f.date⟩],
          nextId := st.nextId + 1 })
  else .error .ValidationError

/-- Modelled from the spec: `delete(id)` on the grade table (§4.1) — fails
with `NotFoundError` if absent. -/
def storeDeleteGrade (st : Store) (gid : Nat) : Except ApiError Store :=
  if st.grades.any (fun g => g.id == gid) then
    .ok { st with grades := removeGrade st.grades gid }
  else .error .NotFoundError

/-- Modelled from the spec: `delete(id)` on the student table (§4.1, §9) —
`NotFoundError` if absent, `ConflictError` (reject-by-default) while grades
still reference the student. -/
def deleteStudent (st : Store) (sid : Nat) : Except ApiError Store :=
  if ¬ st.students.any (fun s => s.id == sid) then .error .NotFoundError
  else if st.grades.any (fun g => g.studentId == sid) then .error .ConflictError
  else .ok { st with students := st.students.filter (fun s => !(s.id == sid)) }

/-- Modelled from the spec: `delete(id)` on the subject table (§4.1, §9) —
`NotFoundError` if absent, `ConflictError` (reject-by-default) while grades
still reference the subject. -/
def deleteSubject (st : Store) (sid : Nat) : Except ApiError Store :=
  if ¬ st.subjects.any (fun s => s.id == sid) then .error .NotFoundError
  else if st.grades.any (fun g => g.subjectId == sid) then .error .ConflictError
  else .ok { st with subjects := st.subjects.filter (fun s => !(s.id == sid)) }

/-- The Entity Store operations (§4.1). -/
inductive StoreOp where
  | createStudent (name : String)
  | createSubject (name : String) (weight : ℚ)
  | createGrade (f : GradeFields)
  | deleteStudent (id : Nat)
  | deleteSubject (id : Nat)
  | deleteGrade (id : Nat)

/-- Applying one operation; a failing operation leaves the store unchanged
(§4.4: a create/delete either fully succeeds or fully fails). -/
def applyOp (st : Store) (op : StoreOp) : Store :=
  match op with
  | .createStudent n =>
      match createStudent st n with | .ok (_, st') => st' | .error _ => st
  | .createSubject n w =>
      match createSubject st n w with | .ok (_, st') => st' | .error _ => st
  | .createGrade f =>
      match createGrade st f with | .ok (_, st') => st' | .error _ => st
  | .deleteStudent i =>
      match deleteStudent st i with | .ok st' => st' | .error _ => st
  | .deleteSubject i =>
      match deleteSubject st i with | .ok st' => st' | .error _ => st
  | .deleteGrade i =>
      match storeDeleteGrade st i with | .ok st' => st' | .error _ => st

/-- Running a sequence of operations. -/
def runOps (st : Store) (ops : List StoreOp) : Store :=
  ops.foldl applyOp st

/-- The Entity Store invariants (§3): no dangling grade references,
positive subject weights, grade values within the scale bounds. -/
def Store.Wf (st : Store) : Prop :=
  (∀ g ∈ st.grades,
      (∃ s ∈ st.students, s.id = g.studentId) ∧
      (∃ c ∈ st.subjects, c.id = g.subjectId) ∧
      st.scale.minV ≤ g.value ∧ g.value ≤ st.scale.maxV) ∧
  (∀ c ∈ st.subjects, 0 < c.weight)

/-- Modelled from the spec: `list(filter)` on the grade table (§4.1) —
returns the grades matching the optional `studentId` / `subjectId` filters,
in insertion order. -/
def listGrades (st : Store) (sidF subjF : Option Nat) : List Grade :=
  st.grades.filter (fun g =>
    (match sidF with | none => true | some a => g.studentId == a) &&
    (match subjF with | none => true | some b => g.subjectId == b))

/-! ## ChatBot front end (embedded from `src/unnamed/part_000`) -/

/-- A chat message as kept in the `messages` React state; `text` is an
`Option` because `data.response` may be absent (`undefined`) in the parsed
JSON. -/
structure ChatMsg where
  sender : String
  text : Option String
  deriving DecidableEq, Repr

/-- The parsed body of a `/chat` response (`data` in `handleSend`). -/
structure ChatData where
  response : Option String
  deriving DecidableEq, Repr

/-- A thrown JavaScript error, with its internal message text. -/
structure JsError where
  message : String
  deriving DecidableEq, Repr

/-- The fixed apology text of the `catch` branch of `handleSend`. -/
def connectionApology : String := "Entschuldigung, ich habe Verbindungsprobleme. 🔌"

/-- JavaScript's `String.prototype.trim`: strip leading and trailing
whitespace (modelled structurally over the character list). -/
def jsTrim (s : String) : String :=
  ⟨((s.data.dropWhile Char.isWhitespace).reverse.dropWhile Char.isWhitespace).reverse⟩

/-- Embedded from `src/unnamed/part_000`, `handleSend`: an empty (trimmed)
input returns unchanged; otherwise the user message is appended and the
awaited fetch/parse `result` either yields a bot message with
`data.response` or — when the awaited chain throws — the fixed apology. -/
def handleSend (prev : List ChatMsg) (input : String)
    (result : Except JsError ChatData) : List ChatMsg :=
  if jsTrim input = "" then prev
  else
    match result with
    | .ok data => (prev ++ [⟨"user", some input⟩]) ++ [⟨"bot", data.response⟩]
    | .error _ => (prev ++ [⟨"user", some input⟩]) ++ [⟨"bot", some connectionApology⟩]

/-! ## GradeHistory front end (embedded from
`src/notenpfad/frontend/src/pages/GradeHistory.jsx`) -/

/-- One step of the stable sort used to model
`gradesData.sort((a, b) => new Date(b.date) - new Date(a.date))`: insert
`g` before the first already-placed element whose date is not newer;
already-placed elements come later in the original array, so ties keep the
original relative order (`Array.prototype.sort` is stable). -/
def insertByDateDesc (g : Grade) : List Grade → List Grade
  | [] => [g]
  | h :: t => if h.date ≤ g.date then g :: h :: t else h :: insertByDateDesc g t

/-- The stable descending-by-date sort of the grade array. -/
def sortByDateDesc (l : List Grade) : List Grade :=
  l.foldr insertByDateDesc []

/-- Embedded from `GradeHistory.jsx`, `fetchData` lines 28–31: the grades
returned by the server are sorted by date descending (newest first) before
being stored with `setGrades`. -/
def fetchDataSortedGrades (gradesData : List Grade) : List Grade :=
  sortByDateDesc gradesData

/-! ## Concrete data for the spec's scenario (§8) -/

/-- Concrete scenario subject "Math", weight 2.0 (§8). -/
def mathSubject : Subject := ⟨1, "Math", 2⟩

/-- Concrete scenario subject "Art", weight 1.0 (§8). -/
def artSubject : Subject := ⟨2, "Art", 1⟩

/-- Concrete scenario subject catalog (§8). -/
def demoSubjects : List Subject := [mathSubject, artSubject]

/-- Concrete scenario grades: Math [4.0, 5.0], Art [3.0] (§8). -/
def demoGrades : List Grade :=
  [⟨1, 1, 1, 4, 0⟩, ⟨2, 1, 1, 5, 1⟩, ⟨3, 1, 2, 3, 2⟩]

/-- A concrete well-formed store on the 1–6 scale: one student, one
subject, no grades yet. -/
def w8Store : Store := ⟨⟨1, 6⟩, [⟨1, "Anna"⟩], [⟨2, "Math", 2⟩], [], 3⟩

/-- The store after creating one grade in `w8Store`. -/
def w8Store' : Store := ⟨⟨1, 6⟩, [⟨1, "Anna"⟩], [⟨2, "Math", 2⟩], [⟨3, 1, 2, 4, 5⟩], 4⟩

/-! ## Average Engine lemmas -/

/-- The accumulator of `overallAverage` computes exactly the pair of sums
over the active subjects. -/
theorem overallAverage_foldl (subjects : List Subject) (gs : List Grade) (x y : ℚ) :
    subjects.foldl
      (fun (p : ℚ × ℚ) s =>
        if (subjectGrades gs s.id).isEmpty then p
        else (p.1 + listMean ((subjectGrades gs s.id).map Grade.value) * s.weight,
              p.2 + s.weight))
      (x, y)
    = (x + numerSum subjects gs, y + denomSum subjects gs) := by
  induction subjects generalizing x y with
  | nil => simp [numerSum, denomSum, activeSubjects]
  | cons s t ih =>
    simp only [List.foldl_cons]
    by_cases hs : (subjectGrades gs s.id).isEmpty
    · rw [if_pos hs, ih]
      simp [numerSum, denomSum, activeSubjects, List.filter_cons, hs]
    · rw [if_neg hs, ih]
      simp only [numerSum, denomSum, activeSubjects, List.filter_cons]
      rw [if_pos (by simp [hs])]
      simp only [List.map_cons, List.sum_cons, subjectAvg, Prod.mk.injEq]
      constructor <;> ring

/-- When the student has at least one grade, the overall average is the
quotient of the two sums. -/
theorem overallAverage_eq (subjects : List Subject) (gs : List Grade) (h : gs ≠ []) :
    overallAverage subjects gs = .ok (numerSum subjects gs / denomSum subjects gs) := by
  unfold overallAverage
  rw [if_neg (by simpa using h)]
  rw [overallAverage_foldl]
  simp

/-! ## Claim C1 -/

/-- C1: for every student with at least one grade, the overall weighted
average equals `Σ(subjectAverage_i × weight_i) / Σ(weight_i)` over the
subjects having at least one grade; and on the concrete scenario (Math
weight 2.0 grades [4.0, 5.0], Art weight 1.0 grade [3.0]) it is exactly 4. -/
theorem C1_overall_weighted_average (subjects : List Subject) (gs : List Grade)
    (h : gs ≠ []) :
    overallAverage subjects gs = .ok (numerSum subjects gs / denomSum subjects gs) ∧
    overallAverage demoSubjects demoGrades = .ok 4 := by
  refine ⟨overallAverage_eq subjects gs h, ?_⟩
  rw [overallAverage_eq demoSubjects demoGrades (by simp [demoGrades])]
  simp +decide only [numerSum, denomSum, activeSubjects, subjectGrades, subjectAvg,
    listMean, demoSubjects, demoGrades, mathSubject, artSubject, List.filter_cons,
    List.filter_nil, List.map_cons, List.map_nil, List.sum_cons, List.sum_nil,
    List.isEmpty_cons, List.length_cons, List.length_nil]
  norm_num

/-- Witness for C1 at the concrete scenario. -/
theorem C1_overall_weighted_average_witness :
    overallAverage demoSubjects demoGrades
      = .ok (numerSum demoSubjects demoGrades / denomSum demoSubjects demoGrades) ∧
    overallAverage demoSubjects demoGrades = .ok 4 :=
  C1_overall_weighted_average demoSubjects demoGrades (by decide)

/-! ## Claim C4 -/

/-- C4: for a student with zero grades in total, the overall average is the
explicit `NoDataError` marker, never a numeric result (in particular never
the numeric value 0). -/
theorem C4_zero_grades_no_data (subjects : List Subject) (gs : List Grade)
    (h : gs = []) :
    overallAverage subjects gs = .error .NoDataError ∧
    ∀ q : ℚ, overallAverage subjects gs ≠ .ok q := by
  subst h
  refine ⟨by simp [overallAverage], ?_⟩
  intro q hq
  simp [overallAverage] at hq

/-- Witness for C4 with the demo subject catalog and no grades. -/
theorem C4_zero_grades_no_data_witness :
    overallAverage demoSubjects [] = .error .NoDataError ∧
    ∀ q : ℚ, overallAverage demoSubjects [] ≠ .ok q :=
  C4_zero_grades_no_data demoSubjects [] rfl

/-! ## Claim C2 -/

/-- C2: a request with a valid student-role token for studentId `A`
targeting the grades of `B ≠ A`, or attempting an admin-only operation
(subject creation, weight edit), fails with `ForbiddenError` (HTTP 403);
a valid admin-role token performs the same read successfully regardless of
the targeted studentId. -/
theorem C2_student_forbidden_admin_allowed
    (secret now : Nat) (t ta : Token) (p pa : TokenPayload) (A B : Nat)
    (hv : validateToken secret now t = .ok p)
    (hrole : p.role = .student) (hsid : p.studentId = some A)
    (hBA : B ≠ A)
    (hva : validateToken secret now ta = .ok pa) (hra : pa.role = .admin)
    (target : Option Nat) (nm : String) (w : ℚ) (subjId : Nat) :
    gateCheck secret now t (.listGrades (some B) none) = .error .ForbiddenError ∧
    gateCheck secret now t (.createSubject nm w) = .error .ForbiddenError ∧
    gateCheck secret now t (.editWeight subjId w) = .error .ForbiddenError ∧
    httpStatus .ForbiddenError = 403 ∧
    gateCheck secret now ta (.listGrades target none) = .ok () := by
  simp only [gateCheck, hv, hva, authorize, hrole, hsid, hra]
  simp [hBA, httpStatus]

/-- Witness for C2: concrete student token (id 1) reading student 2's
grades, and a concrete admin token doing the same read. -/
theorem C2_student_forbidden_admin_allowed_witness :
    gateCheck 5 0 ⟨⟨.student, some 1, 10⟩, sign 5 ⟨.student, some 1, 10⟩⟩
        (.listGrades (some 2) none) = .error .ForbiddenError ∧
    gateCheck 5 0 ⟨⟨.student, some 1, 10⟩, sign 5 ⟨.student, some 1, 10⟩⟩
        (.createSubject "Sport" 1) = .error .ForbiddenError ∧
    gateCheck 5 0 ⟨⟨.student, some 1, 10⟩, sign 5 ⟨.student, some 1, 10⟩⟩
        (.editWeight 2 1) = .error .ForbiddenError ∧
    httpStatus .ForbiddenError = 403 ∧
    gateCheck 5 0 ⟨⟨.admin, none, 10⟩, sign 5 ⟨.admin, none, 10⟩⟩
        (.listGrades (some 2) none) = .ok () :=
  C2_student_forbidden_admin_allowed 5 0
    ⟨⟨.student, some 1, 10⟩, sign 5 ⟨.student, some 1, 10⟩⟩
    ⟨⟨.admin, none, 10⟩, sign 5 ⟨.admin, none, 10⟩⟩
    ⟨.student, some 1, 10⟩ ⟨.admin, none, 10⟩ 1 2
    (by decide) rfl rfl (by decide) (by decide) rfl
    (some 2) "Sport" 1 2

/-! ## Claim C6 -/

/-- C6: an expired token fails validation with `AuthError` (HTTP 401) on
every protected action, regardless of the rest of the payload; expiry is
checked on every `validateToken` call and there is no refresh path. -/
theorem C6_expired_token_401 (secret now : Nat) (t : Token)
    (hexp : t.payload.expiry ≤ now) :
    validateToken secret now t = .error .AuthError ∧
    (∀ a : Action, gateCheck secret now t a = .error .AuthError) ∧
    httpStatus .AuthError = 401 := by
  have hv : validateToken secret now t = .error .AuthError := by
    unfold validateToken
    split_ifs <;> rfl
  exact ⟨hv, fun a => by simp [gateCheck, hv], rfl⟩

/-- Witness for C6: an otherwise perfectly valid admin token whose expiry
(5) is in the past (now = 10). -/
theorem C6_expired_token_401_witness :
    validateToken 3 10 ⟨⟨.admin, none, 5⟩, sign 3 ⟨.admin, none, 5⟩⟩
      = .error .AuthError ∧
    (∀ a : Action, gateCheck 3 10 ⟨⟨.admin, none, 5⟩, sign 3 ⟨.admin, none, 5⟩⟩ a
      = .error .AuthError) ∧
    httpStatus .AuthError = 401 :=
  C6_expired_token_401 3 10 ⟨⟨.admin, none, 5⟩, sign 3 ⟨.admin, none, 5⟩⟩
    (by decide)

/-! ## Claim C9 -/

/-- C9: whenever the awaited Assistant Bridge call throws (timeout, network
failure, backend failure surfaced as a rejection), `handleSend` appends the
single fixed apology message; the output is the same for every error, so
the bridge's internal error text never reaches the displayed messages. -/
theorem C9_chat_failure_apology (prev : List ChatMsg) (input : String)
    (h : jsTrim input ≠ "") (e : JsError) :
    handleSend prev input (.error e)
      = prev ++ [⟨"user", some input⟩, ⟨"bot", some connectionApology⟩] ∧
    ∀ e' : JsError,
      handleSend prev input (.error e') = handleSend prev input (.error e) := by
  refine ⟨by simp [handleSend, h], ?_⟩
  intro e'
  simp [handleSend]

/-- Witness for C9: a concrete timeout error on the message "Hallo". -/
theorem C9_chat_failure_apology_witness :
    handleSend [] "Hallo" (.error ⟨"timeout of 5000ms exceeded"⟩)
      = [] ++ [⟨"user", some "Hallo"⟩, ⟨"bot", some connectionApology⟩] ∧
    ∀ e' : JsError,
      handleSend [] "Hallo" (.error e')
        = handleSend [] "Hallo" (.error ⟨"timeout of 5000ms exceeded"⟩) :=
  C9_chat_failure_apology [] "Hallo" (by decide) ⟨"timeout of 5000ms exceeded"⟩

/-! ## Claim C8 -/

/-- C8: a validly created Grade read back through the filtered list
operation has exactly the value, studentId, subjectId and date supplied at
creation (and carries the id returned by `createGrade`). -/
theorem C8_grade_roundtrip (st : Store) (f : GradeFields) (gid : Nat) (st' : Store)
    (h : createGrade st f = .ok (gid, st')) :
    ∃ g, g ∈ listGrades st' (some f.studentId) (some f.subjectId) ∧
      g.id = gid ∧ g.value = f.value ∧ g.studentId = f.studentId ∧
      g.subjectId = f.subjectId ∧ g.date = f.date := by
  unfold createGrade at h
  by_cases hv : validGradeFields st f
  · rw [if_pos hv] at h
    simp only [Except.ok.injEq, Prod.mk.injEq] at h
    obtain ⟨hgid, hst⟩ := h
    subst hgid
    subst hst
    refine ⟨⟨st.nextId, f.studentId, f.subjectId, f.value, f.date⟩, ?_,
      rfl, rfl, rfl, rfl, rfl⟩
    unfold listGrades
    refine List.mem_filter.mpr ⟨?_, by simp⟩
    exact List.mem_append_right _ (List.mem_singleton.mpr rfl)
  · rw [if_neg hv] at h
    exact absurd h (by simp)

/-- Witness for C8: create the grade (student 1, subject 2, value 4,
date 5) in the concrete store and read it back. -/
theorem C8_grade_roundtrip_witness :
    ∃ g, g ∈ listGrades w8Store' (some 1) (some 2) ∧
      g.id = 3 ∧ g.value = 4 ∧ g.studentId = 1 ∧ g.subjectId = 2 ∧ g.date = 5 :=
  C8_grade_roundtrip w8Store ⟨1, 2, 4, 5⟩ 3 w8Store' (by decide)

/-! ## Entity Store invariant lemmas -/

/-- Every single Entity Store operation preserves the invariants of §3. -/
theorem wf_applyOp (st : Store) (op : StoreOp) (h : st.Wf) : (applyOp st op).Wf := by
  obtain ⟨hg, hs⟩ := h
  cases op with
  | createStudent n =>
    simp only [applyOp, createStudent]
    refine ⟨?_, hs⟩
    intro g hgmem
    obtain ⟨⟨s, hsm, hsi⟩, hsub, hb⟩ := hg g hgmem
    exact ⟨⟨s, List.mem_append_left _ hsm, hsi⟩, hsub, hb⟩
  | createSubject n w =>
    simp only [applyOp]
    unfold createSubject
    by_cases hw : (0:ℚ) < w
    · rw [if_pos hw]
      refine ⟨?_, ?_⟩
      · intro g hgmem
        obtain ⟨hstu, ⟨c, hcm, hci⟩, hb⟩ := hg g hgmem
        exact ⟨hstu, ⟨c, List.mem_append_left _ hcm, hci⟩, hb⟩
      · intro c hcm
        rcases List.mem_append.mp hcm with hcl | hcr
        · exact hs c hcl
        · rw [List.mem_singleton.mp hcr]
          exact hw
    · rw [if_neg hw]
      exact ⟨hg, hs⟩
  | createGrade f =>
    simp only [applyOp]
    unfold createGrade
    by_cases hv : validGradeFields st f = true
    · rw [if_pos hv]
      refine ⟨?_, hs⟩
      intro g hgmem
      rcases List.mem_append.mp hgmem with hgl | hgr
      · exact hg g hgl
      · rw [List.mem_singleton.mp hgr]
        unfold validGradeFields at hv
        simp only [Bool.and_eq_true, decide_eq_true_eq, List.any_eq_true,
          beq_iff_eq] at hv
        obtain ⟨⟨⟨⟨s, hsm, hsi⟩, ⟨c, hcm, hci⟩⟩, hmin⟩, hmax⟩ := hv
        exact ⟨⟨s, hsm, hsi⟩, ⟨c, hcm, hci⟩, hmin, hmax⟩
    · rw [if_neg hv]
      exact ⟨hg, hs⟩
  | deleteStudent i =>
    simp only [applyOp]
    unfold deleteStudent
    by_cases hex : st.students.any (fun s => s.id == i) = true
    · rw [if_neg (by simpa using hex)]
      by_cases hdep : st.grades.any (fun g => g.studentId == i) = true
      · rw [if_pos hdep]
        exact ⟨hg, hs⟩
      · rw [if_neg hdep]
        refine ⟨?_, hs⟩
        intro g hgmem
        obtain ⟨⟨s, hsm, hsi⟩, hsub, hb⟩ := hg g hgmem
        have hgi : ¬ g.studentId = i := by
          intro hcontr
          exact hdep (List.any_eq_true.mpr ⟨g, hgmem, by simp [hcontr]⟩)
        refine ⟨⟨s, List.mem_filter.mpr ⟨hsm, by simp [hsi, hgi]⟩, hsi⟩, hsub, hb⟩
    · rw [if_pos (by simpa using hex)]
      exact ⟨hg, hs⟩
  | deleteSubject i =>
    simp only [applyOp]
    unfold deleteSubject
    by_cases hex : st.subjects.any (fun s => s.id == i) = true
    · rw [if_neg (by simpa using hex)]
      by_cases hdep : st.grades.any (fun g => g.subjectId == i) = true
      · rw [if_pos hdep]
        exact ⟨hg, hs⟩
      · rw [if_neg hdep]
        refine ⟨?_, ?_⟩
        · intro g hgmem
          obtain ⟨hstu, ⟨c, hcm, hci⟩, hb⟩ := hg g hgmem
          have hgi : ¬ g.subjectId = i := by
            intro hcontr
            exact hdep (List.any_eq_true.mpr ⟨g, hgmem, by simp [hcontr]⟩)
          refine ⟨hstu, ⟨c, List.mem_filter.mpr ⟨hcm, by simp [hci, hgi]⟩, hci⟩, hb⟩
        · intro c hcm
          exact hs c (List.mem_filter.mp hcm).1
    · rw [if_pos (by simpa using hex)]
      exact ⟨hg, hs⟩
  | deleteGrade i =>
    simp only [applyOp]
    unfold storeDeleteGrade
    by_cases hex : st.grades.any (fun g => g.id == i) = true
    · rw [if_pos hex]
      refine ⟨?_, hs⟩
      intro g hgmem
      exact hg g (List.mem_filter.mp hgmem).1
    · rw [if_neg hex]
      exact ⟨hg, hs⟩

/-- Any sequence of Entity Store operations preserves the invariants. -/
theorem wf_runOps (st : Store) (ops : List StoreOp) (h : st.Wf) :
    (runOps st ops).Wf := by
  induction ops generalizing st with
  | nil => exact h
  | cons op rest ih => exact ih (applyOp st op) (wf_applyOp st op h)

/-! ## Claim C5 -/

/-- C5: the Entity Store rejects malformed create fields with
`ValidationError` and leaves the store unchanged (in particular value 9 on
the 1–6 scale); consequently every sequence of operations started from a
well-formed store preserves the invariants: no dangling grade references,
positive subject weights, grade values within the scale bounds. -/
theorem C5_store_validation_invariants (st : Store) (f : GradeFields)
    (nm : String) (w : ℚ) (ops : List StoreOp) (hw : st.Wf) :
    (validGradeFields st f = false →
      createGrade st f = .error .ValidationError ∧ applyOp st (.createGrade f) = st) ∧
    (¬ 0 < w →
      createSubject st nm w = .error .ValidationError ∧
      applyOp st (.createSubject nm w) = st) ∧
    createGrade w8Store ⟨1, 2, 9, 0⟩ = .error .ValidationError ∧
    (runOps st ops).Wf := by
  refine ⟨?_, ?_, by decide, wf_runOps st ops hw⟩
  · intro hf
    have h1 : createGrade st f = .error .ValidationError := by
      unfold createGrade
      rw [if_neg (by simp [hf])]
    exact ⟨h1, by simp only [applyOp]; rw [h1]⟩
  · intro hnw
    have h1 : createSubject st nm w = .error .ValidationError := by
      unfold createSubject
      rw [if_neg hnw]
    exact ⟨h1, by simp only [applyOp]; rw [h1]⟩

/-- Witness for C5: in the concrete 1–6 store, a grade referencing a
missing student (id 9) is rejected unchanged, weight 0 is rejected
unchanged, value 9 is rejected, and a concrete operation sequence keeps
the invariants. -/
theorem C5_store_validation_invariants_witness :
    (validGradeFields w8Store ⟨9, 2, 4, 0⟩ = false →
      createGrade w8Store ⟨9, 2, 4, 0⟩ = .error .ValidationError ∧
      applyOp w8Store (.createGrade ⟨9, 2, 4, 0⟩) = w8Store) ∧
    (¬ (0:ℚ) < 0 →
      createSubject w8Store "Sport" 0 = .error .ValidationError ∧
      applyOp w8Store (.createSubject "Sport" 0) = w8Store) ∧
    createGrade w8Store ⟨1, 2, 9, 0⟩ = .error .ValidationError ∧
    (runOps w8Store
      [.createGrade ⟨1, 2, 4, 7⟩, .createStudent "Ben", .deleteGrade 3]).Wf :=
  C5_store_validation_invariants w8Store ⟨9, 2, 4, 0⟩ "Sport" 0
    [.createGrade ⟨1, 2, 4, 7⟩, .createStudent "Ben", .deleteGrade 3]
    (by unfold Store.Wf; decide)

/-! ## Deletion lemmas for the Average Engine -/

/-- Deleting by id commutes with restricting to one subject. -/
theorem subjectGrades_removeGrade (gs : List Grade) (gid sid : Nat) :
    subjectGrades (removeGrade gs gid) sid
      = (subjectGrades gs sid).filter (fun g => !(g.id == gid)) := by
  unfold subjectGrades removeGrade
  rw [List.filter_filter, List.filter_filter]
  apply List.filter_congr
  intro g _
  rw [Bool.and_comm]

/-- Summing `f` over a list with one designated member removed (ids are
unique) subtracts exactly `f s`. -/
theorem sum_map_filter_ne (L : List Subject) (s : Subject) (f : Subject → ℚ)
    (hmem : s ∈ L) (hnd : (L.map Subject.id).Nodup) :
    ((L.filter (fun t => !(t.id == s.id))).map f).sum = (L.map f).sum - f s := by
  induction L with
  | nil => cases hmem
  | cons a T ih =>
    simp only [List.map_cons, List.nodup_cons] at hnd
    rcases List.mem_cons.mp hmem with rfl | hsT
    · rw [List.filter_cons, if_neg (by simp)]
      have hT : T.filter (fun t => !(t.id == s.id)) = T := by
        apply List.filter_eq_self.mpr
        intro x hx
        have hne : x.id ≠ s.id := by
          intro hcontr
          exact hnd.1 (hcontr ▸ List.mem_map_of_mem Subject.id hx)
        simp [hne]
      rw [hT]
      simp only [List.map_cons, List.sum_cons]
      ring
    · have has : a.id ≠ s.id := by
        intro hcontr
        exact hnd.1 (hcontr ▸ List.mem_map_of_mem Subject.id hsT)
      rw [List.filter_cons, if_pos (by simp [has])]
      simp only [List.map_cons, List.sum_cons]
      rw [ih hsT hnd.2]
      ring

/-! ## Claim C3 -/

/-- C3: deleting a student's only grade `g` in subject `s` removes `s` from
the overall-average computation entirely: `s` is no longer an active
subject, and its weight leaves both the numerator sum and the denominator
sum (it does not stay with a zero contribution). -/
theorem C3_delete_only_grade (subjects : List Subject) (gs : List Grade)
    (s : Subject) (g : Grade)
    (hone : subjectGrades gs s.id = [g])
    (huniq : ∀ x ∈ gs, x.id = g.id → x = g)
    (hsmem : s ∈ subjects)
    (hnodup : (subjects.map Subject.id).Nodup) :
    s ∈ activeSubjects subjects gs ∧
    s ∉ activeSubjects subjects (removeGrade gs g.id) ∧
    activeSubjects subjects (removeGrade gs g.id)
      = (activeSubjects subjects gs).filter (fun t => !(t.id == s.id)) ∧
    denomSum subjects (removeGrade gs g.id) = denomSum subjects gs - s.weight ∧
    numerSum subjects (removeGrade gs g.id)
      = numerSum subjects gs - subjectAvg gs s.id * s.weight := by
  have hgsub : g.subjectId = s.id := by
    have hgm : g ∈ subjectGrades gs s.id := by
      rw [hone]; exact List.mem_singleton.mpr rfl
    have := List.mem_filter.mp hgm
    simpa using this.2
  have hafter : subjectGrades (removeGrade gs g.id) s.id = [] := by
    rw [subjectGrades_removeGrade, hone]
    simp
  have hother : ∀ tid, tid ≠ s.id →
      subjectGrades (removeGrade gs g.id) tid = subjectGrades gs tid := by
    intro tid hne
    rw [subjectGrades_removeGrade]
    apply List.filter_eq_self.mpr
    intro x hx
    have hxmem := List.mem_filter.mp hx
    have hxsub : x.subjectId = tid := by simpa using hxmem.2
    have hxid : x.id ≠ g.id := by
      intro hcontr
      have hxg : x = g := huniq x hxmem.1 hcontr
      exact hne (by rw [← hxsub, hxg, hgsub])
    simp [hxid]
  have hactive : activeSubjects subjects (removeGrade gs g.id)
      = (activeSubjects subjects gs).filter (fun t => !(t.id == s.id)) := by
    unfold activeSubjects
    rw [List.filter_filter]
    apply List.filter_congr
    intro t htmem
    by_cases hts : t.id = s.id
    · rw [hts, hafter]
      simp [hone]
    · rw [hother t.id hts]
      simp [hts]
  have hsactive : s ∈ activeSubjects subjects gs :=
    List.mem_filter.mpr ⟨hsmem, by simp [hone]⟩
  have hndL : ((activeSubjects subjects gs).map Subject.id).Nodup :=
    List.Nodup.sublist (List.Sublist.map Subject.id (List.filter_sublist subjects))
      hnodup
  refine ⟨hsactive, ?_, hactive, ?_, ?_⟩
  · intro hcontr
    rw [hactive] at hcontr
    have := List.mem_filter.mp hcontr
    simpa using this.2
  · unfold denomSum
    rw [hactive]
    exact sum_map_filter_ne _ s Subject.weight hsactive hndL
  · unfold numerSum
    rw [hactive]
    have hmapeq :
        (((activeSubjects subjects gs).filter (fun t => !(t.id == s.id))).map
            (fun t => subjectAvg (removeGrade gs g.id) t.id * t.weight))
        = (((activeSubjects subjects gs).filter (fun t => !(t.id == s.id))).map
            (fun t => subjectAvg gs t.id * t.weight)) := by
      apply List.map_congr_left
      intro t htmem
      have hts : t.id ≠ s.id := by
        have := (List.mem_filter.mp htmem).2
        simpa using this
      unfold subjectAvg
      rw [hother t.id hts]
    rw [hmapeq]
    exact sum_map_filter_ne _ s (fun t => subjectAvg gs t.id * t.weight) hsactive hndL

/-- Witness for C3: deleting Art's only grade (id 3) from the demo data. -/
theorem C3_delete_only_grade_witness :
    artSubject ∈ activeSubjects demoSubjects demoGrades ∧
    artSubject ∉ activeSubjects demoSubjects (removeGrade demoGrades 3) ∧
    activeSubjects demoSubjects (removeGrade demoGrades 3)
      = (activeSubjects demoSubjects demoGrades).filter
          (fun t => !(t.id == artSubject.id)) ∧
    denomSum demoSubjects (removeGrade demoGrades 3)
      = denomSum demoSubjects demoGrades - artSubject.weight ∧
    numerSum demoSubjects (removeGrade demoGrades 3)
      = numerSum demoSubjects demoGrades
          - subjectAvg demoGrades artSubject.id * artSubject.weight :=
  C3_delete_only_grade demoSubjects demoGrades artSubject ⟨3, 1, 2, 3, 2⟩
    (by decide) (by decide) (by decide) (by decide)

/-! ## Weighted-mean bound lemmas -/

/-- Lower bound: a pointwise lower bound on `f` scales through the
weighted sum. -/
theorem mul_denom_le_numer (m : ℚ) (L : List Subject) (f : Subject → ℚ)
    (hw : ∀ t ∈ L, 0 < t.weight) (hm : ∀ t ∈ L, m ≤ f t) :
    m * (L.map Subject.weight).sum ≤ (L.map (fun t => f t * t.weight)).sum := by
  induction L with
  | nil => simp
  | cons a T ih =>
    simp only [List.map_cons, List.sum_cons, mul_add]
    have h1 : m * a.weight ≤ f a * a.weight :=
      mul_le_mul_of_nonneg_right (hm a (List.mem_cons_self a T))
        (le_of_lt (hw a (List.mem_cons_self a T)))
    have h2 := ih (fun t ht => hw t (List.mem_cons_of_mem a ht))
      (fun t ht => hm t (List.mem_cons_of_mem a ht))
    linarith

/-- Upper bound: a pointwise upper bound on `f` scales through the
weighted sum. -/
theorem numer_le_mul_denom (M : ℚ) (L : List Subject) (f : Subject → ℚ)
    (hw : ∀ t ∈ L, 0 < t.weight) (hM : ∀ t ∈ L, f t ≤ M) :
    (L.map (fun t => f t * t.weight)).sum ≤ M * (L.map Subject.weight).sum := by
  induction L with
  | nil => simp
  | cons a T ih =>
    simp only [List.map_cons, List.sum_cons, mul_add]
    have h1 : f a * a.weight ≤ M * a.weight :=
      mul_le_mul_of_nonneg_right (hM a (List.mem_cons_self a T))
        (le_of_lt (hw a (List.mem_cons_self a T)))
    have h2 := ih (fun t ht => hw t (List.mem_cons_of_mem a ht))
      (fun t ht => hM t (List.mem_cons_of_mem a ht))
    linarith

/-! ## Claim C7 -/

/-- C7: with positive subject weights, the overall weighted average of a
student with at least one grade lies between the minimum `m` and the
maximum `M` of the per-subject averages over the active subjects (`m` and
`M` are themselves per-subject averages and bound all of them). -/
theorem C7_weighted_mean_bounds (subjects : List Subject) (gs : List Grade)
    (m M : ℚ)
    (hw : ∀ t ∈ subjects, 0 < t.weight)
    (hmmem : m ∈ (activeSubjects subjects gs).map (fun t => subjectAvg gs t.id))
    (hmlb : ∀ t ∈ activeSubjects subjects gs, m ≤ subjectAvg gs t.id)
    (hMmem : M ∈ (activeSubjects subjects gs).map (fun t => subjectAvg gs t.id))
    (hMub : ∀ t ∈ activeSubjects subjects gs, subjectAvg gs t.id ≤ M) :
    m ≤ numerSum subjects gs / denomSum subjects gs ∧
    numerSum subjects gs / denomSum subjects gs ≤ M ∧
    overallAverage subjects gs = .ok (numerSum subjects gs / denomSum subjects gs) := by
  have hLne : activeSubjects subjects gs ≠ [] := by
    intro h
    rw [h] at hmmem
    simp at hmmem
  have hwL : ∀ t ∈ activeSubjects subjects gs, 0 < t.weight :=
    fun t ht => hw t (List.mem_filter.mp ht).1
  have hd : 0 < denomSum subjects gs := by
    unfold denomSum
    apply List.sum_pos
    · intro x hx
      obtain ⟨t, htmem, rfl⟩ := List.mem_map.mp hx
      exact hwL t htmem
    · simp only [ne_eq, List.map_eq_nil_iff]
      exact hLne
  have hgs : gs ≠ [] := by
    intro h
    subst h
    simp [activeSubjects, subjectGrades] at hmmem
  refine ⟨?_, ?_, overallAverage_eq subjects gs hgs⟩
  · rw [le_div_iff₀ hd]
    exact mul_denom_le_numer m _ (fun t => subjectAvg gs t.id) hwL hmlb
  · rw [div_le_iff₀ hd]
    exact numer_le_mul_denom M _ (fun t => subjectAvg gs t.id) hwL hMub

/-- Witness for C7 on the demo data: the overall average 4 lies between
the Art average 3 and the Math average 9/2. -/
theorem C7_weighted_mean_bounds_witness :
    (3:ℚ) ≤ numerSum demoSubjects demoGrades / denomSum demoSubjects demoGrades ∧
    numerSum demoSubjects demoGrades / denomSum demoSubjects demoGrades ≤ (9/2 : ℚ) ∧
    overallAverage demoSubjects demoGrades
      = .ok (numerSum demoSubjects demoGrades / denomSum demoSubjects demoGrades) := by
  have hact : activeSubjects demoSubjects demoGrades = [mathSubject, artSubject] := by
    decide
  have havg1 : subjectAvg demoGrades mathSubject.id = 9/2 := by
    simp +decide only [subjectAvg, subjectGrades, listMean, demoGrades, mathSubject,
      List.filter_cons, List.filter_nil, List.map_cons, List.map_nil, List.sum_cons,
      List.sum_nil, List.length_cons, List.length_nil]
    norm_num
  have havg2 : subjectAvg demoGrades artSubject.id = 3 := by
    simp +decide only [subjectAvg, subjectGrades, listMean, demoGrades, artSubject,
      List.filter_cons, List.filter_nil, List.map_cons, List.map_nil, List.sum_cons,
      List.sum_nil, List.length_cons, List.length_nil]
    norm_num
  refine C7_weighted_mean_bounds demoSubjects demoGrades 3 (9/2) (by decide)
    ?_ ?_ ?_ ?_
  · rw [hact]
    simp only [List.map_cons, List.map_nil, havg1, havg2, List.mem_cons]
    norm_num
  · intro t ht
    rw [hact] at ht
    rcases List.mem_cons.mp ht with rfl | ht2
    · rw [havg1]; norm_num
    · rw [List.mem_singleton.mp ht2, havg2]
  · rw [hact]
    simp only [List.map_cons, List.map_nil, havg1, havg2, List.mem_cons]
    norm_num
  · intro t ht
    rw [hact] at ht
    rcases List.mem_cons.mp ht with rfl | ht2
    · rw [havg1]
    · rw [List.mem_singleton.mp ht2, havg2]; norm_num

/-! ## Sorting lemmas for the GradeHistory page -/

/-- Inserting an element produces a permutation of consing it. -/
theorem perm_insertByDateDesc (g : Grade) (l : List Grade) :
    (insertByDateDesc g l).Perm (g :: l) := by
  induction l with
  | nil => exact List.Perm.refl _
  | cons a t ih =>
    unfold insertByDateDesc
    by_cases hle : a.date ≤ g.date
    · rw [if_pos hle]
    · rw [if_neg hle]
      exact (ih.cons a).trans (List.Perm.swap g a t)

/-- The sort is a permutation of its input. -/
theorem perm_sortByDateDesc (l : List Grade) : (sortByDateDesc l).Perm l := by
  induction l with
  | nil => exact List.Perm.refl _
  | cons a t ih =>
    show (insertByDateDesc a (sortByDateDesc t)).Perm (a :: t)
    exact (perm_insertByDateDesc a (sortByDateDesc t)).trans (ih.cons a)

/-- Insertion preserves the descending-by-date invariant. -/
theorem pairwise_insertByDateDesc (g : Grade) (l : List Grade)
    (h : l.Pairwise (fun a b => b.date ≤ a.date)) :
    (insertByDateDesc g l).Pairwise (fun a b => b.date ≤ a.date) := by
  induction l with
  | nil => simp [insertByDateDesc]
  | cons a t ih =>
    rcases List.pairwise_cons.mp h with ⟨ha, ht⟩
    unfold insertByDateDesc
    by_cases hle : a.date ≤ g.date
    · rw [if_pos hle]
      refine List.pairwise_cons.mpr ⟨?_, h⟩
      intro b hb
      rcases List.mem_cons.mp hb with rfl | hbt
      · exact hle
      · exact le_trans (ha b hbt) hle
    · rw [if_neg hle]
      refine List.pairwise_cons.mpr ⟨?_, ih ht⟩
      intro b hb
      rcases List.mem_cons.mp ((perm_insertByDateDesc g t).subset hb) with rfl | hbt
      · exact le_of_not_le hle
      · exact ha b hbt

/-- The sorted list is descending by date. -/
theorem pairwise_sortByDateDesc (l : List Grade) :
    (sortByDateDesc l).Pairwise (fun a b => b.date ≤ a.date) := by
  induction l with
  | nil => simp [sortByDateDesc]
  | cons a t ih => exact pairwise_insertByDateDesc a (sortByDateDesc t) ih

/-- Stability through one insertion: restricting to one date value is
unchanged up to the position of the new element in front. -/
theorem filter_insertByDateDesc (g : Grade) (l : List Grade) (d : Nat) :
    (insertByDateDesc g l).filter (fun x => x.date == d)
      = ((g :: l).filter (fun x => x.date == d)) := by
  induction l with
  | nil => rfl
  | cons a t ih =>
    unfold insertByDateDesc
    by_cases hle : a.date ≤ g.date
    · rw [if_pos hle]
    · rw [if_neg hle]
      have hlt : g.date < a.date := not_le.mp hle
      by_cases had : (a.date == d) = true <;> by_cases hgd : (g.date == d) = true
      · have h1 : a.date = d := by simpa using had
        have h2 : g.date = d := by simpa using hgd
        omega
      · simp only [List.filter_cons, had, hgd, ih, if_true, if_false]
        simp [had, hgd]
      · simp only [List.filter_cons, had, hgd, ih, if_true, if_false]
        simp [had, hgd]
      · simp only [List.filter_cons, had, hgd, ih, if_true, if_false]
        simp [had, hgd]

/-- Stability of the whole sort: the subsequence of any fixed date is the
same as in the input (the server-returned relative order). -/
theorem filter_sortByDateDesc (l : List Grade) (d : Nat) :
    (sortByDateDesc l).filter (fun x => x.date == d)
      = l.filter (fun x => x.date == d) := by
  induction l with
  | nil => rfl
  | cons a t ih =>
    show (insertByDateDesc a (sortByDateDesc t)).filter (fun x => x.date == d) = _
    rw [filter_insertByDateDesc]
    simp only [List.filter_cons, ih]

/-! ## Claim C10 -/

/-- C10: `fetchData` stores a permutation of the server-returned grades
sorted by date descending (newest first); for equal dates the
server-returned relative order is kept (JavaScript's stable sort), so the
displayed order is determined by the date field and, on ties, by the
server order. -/
theorem C10_fetchData_sorts_descending (gradesData : List Grade) :
    (fetchDataSortedGrades gradesData).Perm gradesData ∧
    (fetchDataSortedGrades gradesData).Pairwise (fun a b => b.date ≤ a.date) ∧
    ∀ d, (fetchDataSortedGrades gradesData).filter (fun g => g.date == d)
          = gradesData.filter (fun g => g.date == d) :=
  ⟨perm_sortByDateDesc gradesData, pairwise_sortByDateDesc gradesData,
    fun d => filter_sortByDateDesc gradesData d⟩

end Notenpfad
